import Mathlib

/-!
Verification development for the task-manager backend.

Shallow embedding of the two core subsystems:
  * the cursor-based pagination and filtering engine
    (app/modules/tasks/repository.py, service.py, schemas.py, router.py);
  * the credential and session-token lifecycle
    (app/modules/users/service.py, security.py, jwt.py, app/core/auth.py).

Modelling conventions:
  * UUIDv7 identifiers are strings ordered lexicographically, and that order
    agrees with creation order; we model an id by its rank in that total
    order, a natural number.  SQL rows become Lean lists, `WHERE` clauses
    become `List.filter`, `ORDER BY id` becomes a sort by id, `LIMIT n`
    becomes `List.take n`.
  * Python exceptions are modelled with `Except` / `Option` return values;
    an uncaught exception is an `Except.error` that the embedded caller
    propagates.
  * Timestamps are integers (seconds since epoch).
-/

namespace TaskManager

/-- Task status enum from app/modules/tasks/models.py. -/
inductive TaskStatus
  | todo
  | in_progress
  | done
  deriving DecidableEq, Repr

/-- Task priority enum from app/modules/tasks/models.py. -/
inductive TaskPriority
  | low
  | medium
  | high
  | urgent
  deriving DecidableEq, Repr

/-- A row of the `tasks` table (app/modules/tasks/models.py).  The UUIDv7
primary key is modelled by its rank in the lexicographic order on UUID
strings (a natural number), which is the order SQL uses for
`ORDER BY id` and `id > cursor`. -/
structure Task where
  id : Nat
  title : String
  descr : String
  status : TaskStatus
  priority : TaskPriority
  ownerId : Nat
  createdAt : Int
  updatedAt : Int
  deriving DecidableEq, Repr

/-- The optional filter set of `TaskFilter` (app/modules/tasks/schemas.py):
status equality, priority equality, inclusive created-at and updated-at
bounds; a `none` field imposes no constraint. -/
structure TaskFilter where
  status : Option TaskStatus
  priority : Option TaskPriority
  created_after : Option Int
  created_before : Option Int
  updated_after : Option Int
  updated_before : Option Int
  deriving DecidableEq, Repr

/-- One optional `query = query.filter(...)` step of
`TaskRepository.get_list` (repository.py lines 84-96): when the filter
field is absent the query is unchanged, otherwise the rows are filtered. -/
def optFilterStep (o : Option β) (f : β → Task → Bool) (l : List Task) : List Task :=
  match o with
  | none => l
  | some b => l.filter (f b)

/-- The filter block of `TaskRepository.get_list` (repository.py lines
84-96): the six optional conditions applied in source order. -/
def applyFilters : Option TaskFilter → List Task → List Task
  | none, l => l
  | some f, l =>
    optFilterStep f.updated_before (fun b t => decide (t.updatedAt ≤ b))
      (optFilterStep f.updated_after (fun a t => decide (a ≤ t.updatedAt))
        (optFilterStep f.created_before (fun b t => decide (t.createdAt ≤ b))
          (optFilterStep f.created_after (fun a t => decide (a ≤ t.createdAt))
            (optFilterStep f.priority (fun p t => t.priority == p)
              (optFilterStep f.status (fun s t => t.status == s) l)))))

/-- The conjunction of the supplied filters, as a predicate on one row:
the semantics of the filter block on a single task. -/
def matchesFilter : Option TaskFilter → Task → Bool
  | none, _ => true
  | some f, t =>
    f.status.all (fun s => t.status == s) &&
    f.priority.all (fun p => t.priority == p) &&
    f.created_after.all (fun a => decide (a ≤ t.createdAt)) &&
    f.created_before.all (fun b => decide (t.createdAt ≤ b)) &&
    f.updated_after.all (fun a => decide (a ≤ t.updatedAt)) &&
    f.updated_before.all (fun b => decide (t.updatedAt ≤ b))

/-- Comparison by id, the order of `ORDER BY Task.id`. -/
def leId (a b : Task) : Prop := a.id ≤ b.id

/-- Strict comparison by id. -/
def ltId (a b : Task) : Prop := a.id < b.id

instance : DecidableRel leId := fun a b => Nat.decLe a.id b.id

instance : IsTotal Task leId := ⟨fun a b => Nat.le_total a.id b.id⟩

instance : IsTrans Task leId := ⟨fun _ _ _ h h2 => Nat.le_trans h h2⟩

/-- `query.order_by(Task.id)` (repository.py line 99): sort the matching
rows by id. -/
def sortById (l : List Task) : List Task := List.insertionSort leId l

/-- The cursor clause (repository.py lines 102-103): with a cursor, keep
only rows with `Task.id > cursor`; with no cursor the query is unchanged. -/
def afterCursor (cursor : Option Nat) (l : List Task) : List Task :=
  match cursor with
  | none => l
  | some c => l.filter (fun t => decide (c < t.id))

/-- The owner-scoped, filtered, id-ordered row set of
`TaskRepository.get_list` before the cursor and limit are applied
(repository.py lines 81-99). -/
def matchingSorted (db : List Task) (owner : Nat) (filters : Option TaskFilter) : List Task :=
  sortById (applyFilters filters (db.filter (fun t => t.ownerId == owner)))

/-- The rows actually fetched by `query.limit(limit + 1).all()`
(repository.py line 106). -/
def fetchRows (db : List Task) (owner : Nat) (cursor : Option Nat) (limit : Nat)
    (filters : Option TaskFilter) : List Task :=
  (afterCursor cursor (matchingSorted db owner filters)).take (limit + 1)

/-- Post-processing of the fetched rows (repository.py lines 108-131):
`has_more = len(tasks) > limit`; when `has_more` the extra row is dropped
with `tasks[:-1]`; `next_cursor` is the id of the last returned row when
the returned list is non-empty and `has_more` holds, else `None`. -/
def pageCore (fetched : List Task) (limit : Nat) : List Task × Option Nat × Bool :=
  let has_more : Bool := decide (limit < fetched.length)
  let tasks := if limit < fetched.length then fetched.dropLast else fetched
  let next_cursor := if limit < fetched.length then tasks.getLast?.map (fun t => t.id) else none
  (tasks, next_cursor, has_more)

/-- `TaskRepository.get_list` (repository.py lines 62-131): build the
owner+filters+cursor query ordered by id, fetch `limit + 1` rows, and
post-process into `(tasks, next_cursor, has_more)`. -/
def get_list (db : List Task) (owner : Nat) (cursor : Option Nat) (limit : Nat)
    (filters : Option TaskFilter) : List Task × Option Nat × Bool :=
  pageCore (fetchRows db owner cursor limit filters) limit

/-- The client-side pagination loop: call `get_list`, and while `has_more`
holds follow the returned `next_cursor`.  Fuel bounds the recursion; the
caller supplies enough fuel for the whole collection. -/
def followPagesAux (db : List Task) (owner : Nat) (k : Nat) (filters : Option TaskFilter) :
    Nat → Option Nat → List (List Task × Option Nat × Bool)
  | 0, _ => []
  | fuel + 1, cursor =>
    let r := get_list db owner cursor k filters
    if r.2.2 then r :: followPagesAux db owner k filters fuel r.2.1 else [r]

/-- Paging through the whole collection: start with no cursor and follow
each returned `next_cursor` until `has_more` is false. -/
def followPages (db : List Task) (owner : Nat) (k : Nat) (filters : Option TaskFilter) :
    List (List Task × Option Nat × Bool) :=
  followPagesAux db owner k filters (db.length + 1) none

/-- Reference chunking of a row list into pages of size `k`: the shape the
pagination loop is proved to produce. -/
def chunkPages (k : Nat) : Nat → List Task → List (List Task × Option Nat × Bool)
  | 0, _ => []
  | fuel + 1, r =>
    if r.length ≤ k then [(r, none, false)]
    else (r.take k, (r.take k).getLast?.map (fun t => t.id), true) ::
      chunkPages k fuel (r.drop k)

/-- Pydantic validation of `TaskPaginationRequest.limit`
(app/modules/tasks/schemas.py lines 98-103): the declared bounds are
`ge=1, le=100`; a request outside them is rejected by FastAPI with a 422
validation error before any handler runs.  The error detail is
field-level text, abstracted here to one string. -/
def validatePaginationLimit (limit : Int) : Except (Nat × String) Int :=
  if 1 ≤ limit ∧ limit ≤ 100 then Except.ok limit else Except.error (422, "limit out of range")

/-- The export clamp of `export_tasks_csv` (app/modules/tasks/router.py
line 182): `pagination.limit = min(pagination.limit or 1000, 1000)`.
A Python int is falsy exactly when it is zero. -/
def exportEffectiveLimit (limit : Int) : Int :=
  min (if limit == 0 then 1000 else limit) 1000

/-- A concrete task for witness instantiations: id `i`, owner 7, fixed
title and timestamps. -/
def wTask (i : Nat) (s : TaskStatus) (p : TaskPriority) : Task :=
  ⟨i, "t", "", s, p, 7, 0, 0⟩

/-- A concrete three-task table for witness instantiations, stored out of
id order. -/
def wDb : List Task :=
  [wTask 3 TaskStatus.todo TaskPriority.high,
   wTask 1 TaskStatus.todo TaskPriority.low,
   wTask 2 TaskStatus.in_progress TaskPriority.low]

/-! ## Credential and session-token lifecycle -/

/-- The subset of `Settings` (app/config.py) the core reads: the signing
secret and the two token lifetimes in minutes. -/
structure Settings where
  secret_key : String
  access_token_expires_in : Int
  refresh_token_expires_in : Int
  deriving DecidableEq, Repr

/-- A bearer-token string, as PyJWT classifies it: either not a
structurally valid JWT at all, or a well-formed token carrying a subject,
an absolute expiry (unix seconds) and the key it was signed with. -/
inductive JwtToken
  | malformed (raw : String)
  | signed (sub : String) (exp : Int) (key : String)
  deriving DecidableEq, Repr

/-- The decoded claim set `{sub, exp}` (spec wire format, security.py
lines 63 and 84). -/
structure JwtPayload where
  sub : String
  exp : Int
  deriving DecidableEq, Repr

/-- PyJWT exceptions relevant to decoding.  In PyJWT all three are
subclasses of `InvalidTokenError`; only `expiredSignature` is additionally
caught by `except jwt.ExpiredSignatureError`. -/
inductive PyJwtError
  | decodeError
  | invalidSignature
  | expiredSignature
  deriving DecidableEq, Repr

/-- Model of `jwt.decode(token, key, algorithms)` from PyJWT: reject a
malformed string with `DecodeError`, a signature made with a different
key with `InvalidSignatureError`, and an elapsed `exp` with
`ExpiredSignatureError`; otherwise return the payload. -/
def jwt_decode (t : JwtToken) (key : String) (now : Int) : Except PyJwtError JwtPayload :=
  match t with
  | JwtToken.malformed _ => Except.error PyJwtError.decodeError
  | JwtToken.signed sub exp k =>
    if k ≠ key then Except.error PyJwtError.invalidSignature
    else if exp ≤ now then Except.error PyJwtError.expiredSignature
    else Except.ok ⟨sub, exp⟩

/-- Model of `jwt.encode(payload, key, algorithm)` from PyJWT: a
structurally valid token signed with `key`. -/
def jwt_encode (payload : JwtPayload) (key : String) : JwtToken :=
  JwtToken.signed payload.sub payload.exp key

/-- `decodeJWT` (app/modules/users/jwt.py lines 7-21): decode with the
configured secret and return the payload, or `None` on any
`InvalidTokenError` - the expired, bad-signature and malformed cases all
collapse to `None`. -/
def decodeJWT (t : JwtToken) (st : Settings) (now : Int) : Option JwtPayload :=
  match jwt_decode t st.secret_key now with
  | Except.ok p => some p
  | Except.error _ => none

/-- An HTTP error outcome: status code and detail string, the observable
payload of a raised `HTTPException`. -/
structure HttpError where
  status : Nat
  detail : String
  deriving DecidableEq, Repr

/-- `verify_jwt_token` (app/core/auth.py lines 15-47): decode with the
configured secret; `ExpiredSignatureError` is caught first and surfaces
401 with detail "Token has expired", any other `InvalidTokenError`
surfaces 401 with detail "Invalid token". -/
def verify_jwt_token (t : JwtToken) (st : Settings) (now : Int) : Except HttpError JwtPayload :=
  match jwt_decode t st.secret_key now with
  | Except.ok p => Except.ok p
  | Except.error PyJwtError.expiredSignature => Except.error ⟨401, "Token has expired"⟩
  | Except.error _ => Except.error ⟨401, "Invalid token"⟩

/-- `create_access_token` (app/modules/users/security.py lines 47-65):
expiry is `now + expires_delta` when a delta is supplied, else
`now + access_token_expires_in` minutes; payload `{exp, sub: str(subject)}`
signed with the configured secret.  Deltas are in seconds. -/
def create_access_token (subject : String) (expires_delta : Option Int) (st : Settings)
    (now : Int) : JwtToken :=
  let exp := match expires_delta with
    | some d => now + d
    | none => now + st.access_token_expires_in * 60
  jwt_encode ⟨subject, exp⟩ st.secret_key

/-- `create_refresh_token` (app/modules/users/security.py lines 68-86):
as `create_access_token` but defaulting to the refresh lifetime. -/
def create_refresh_token (subject : String) (expires_delta : Option Int) (st : Settings)
    (now : Int) : JwtToken :=
  let exp := match expires_delta with
    | some d => now + d
    | none => now + st.refresh_token_expires_in * 60
  jwt_encode ⟨subject, exp⟩ st.secret_key

/-- Passlib exception raised by `CryptContext.verify` when the stored
hash does not parse under any configured scheme (a `ValueError`
subclass named UnknownHashError). -/
inductive PasslibError
  | unknownHash
  deriving DecidableEq, Repr

/-- Whether a stored string parses as a hash of the configured scheme
(`CryptContext(schemes=["argon2"])`): argon2 hashes start with the
"$argon2" prefix marker. -/
def argon2Identify (hashed : String) : Bool :=
  "$argon2id$".data.isPrefixOf hashed.data

/-- Model of `pwd_context.hash` with the argon2 scheme.  Salt and digest
are abstracted: the encoded output is an injective function of the
password carrying the scheme marker, which is what the control-flow
properties verified here depend on. -/
def pwd_context_hash (password : String) : String :=
  "$argon2id$" ++ password

/-- Model of `pwd_context.verify`: if the stored hash is not recognized
as a hash of a configured scheme, passlib raises UnknownHashError;
otherwise it returns whether the password matches the hash. -/
def pwd_context_verify (plain hashed : String) : Except PasslibError Bool :=
  if argon2Identify hashed then Except.ok (hashed == pwd_context_hash plain)
  else Except.error PasslibError.unknownHash

/-- A user row as `UserRepository.get_by_username` returns it to the
service: id, username, email and the stored password hash. -/
structure User where
  id : String
  username : String
  email : String
  password : String
  deriving DecidableEq, Repr

/-- `UserTokenResponse` (app/modules/users/schemas.py): the success
outcome of password authentication and of token refresh. -/
structure UserTokenResponse where
  user_id : String
  access_token : JwtToken
  refresh_token : JwtToken
  deriving DecidableEq, Repr

/-- An error escaping a service call: a raised `HTTPException`, or a
passlib error propagating uncaught through the service. -/
inductive PyError
  | http (e : HttpError)
  | passlib (e : PasslibError)
  deriving DecidableEq, Repr

namespace UserService

/-- `UserRepository.get_by_username`: look the user up by exact username
in the user table. -/
def get_by_username (repo : List User) (username : String) : Option User :=
  repo.find? (fun u => u.username == username)

/-- `UserRepository.get_by_id`: look the user up by id in the user
table. -/
def get_by_id (repo : List User) (id : String) : Option User :=
  repo.find? (fun u => u.id == id)

/-- `UserService._verify_password` (service.py lines 58-69): delegate to
`pwd_context.verify`; any passlib exception propagates to the caller. -/
def verify_password (plain hashed : String) : Except PasslibError Bool :=
  pwd_context_verify plain hashed

/-- `UserService.get_user_token` (service.py lines 144-190): look up by
username, failing with 401 "Invalid username or password"; verify the
password, failing with the identical 401 on mismatch (and propagating a
passlib error on a malformed stored hash); on success mint the access and
refresh tokens with the configured lifetimes. -/
def get_user_token (repo : List User) (st : Settings) (now : Int)
    (username password : String) : Except PyError UserTokenResponse :=
  match get_by_username repo username with
  | none => Except.error (PyError.http ⟨401, "Invalid username or password"⟩)
  | some user =>
    match verify_password password user.password with
    | Except.error e => Except.error (PyError.passlib e)
    | Except.ok false => Except.error (PyError.http ⟨401, "Invalid username or password"⟩)
    | Except.ok true =>
      Except.ok ⟨user.id,
        create_access_token user.id (some (st.access_token_expires_in * 60)) st now,
        create_refresh_token user.id (some (st.refresh_token_expires_in * 60)) st now⟩

/-- Modelled from the spec: `UserService.refresh_access_token` is invoked
by the refresh route (router.py line 129) but its definition is absent
from the source tree.  Spec section 4.4: decode the refresh token under
the same rules as verification, re-resolve the subject to a live user,
and on success mint a brand-new access/refresh pair; failure of decode or
of user lookup returns `Unauthorized` uniformly. -/
def refresh_access_token (repo : List User) (st : Settings) (now : Int)
    (token : JwtToken) : Except PyError UserTokenResponse :=
  match decodeJWT token st now with
  | none => Except.error (PyError.http ⟨401, "Invalid refresh token"⟩)
  | some payload =>
    match get_by_id repo payload.sub with
    | none => Except.error (PyError.http ⟨401, "Invalid refresh token"⟩)
    | some user =>
      Except.ok ⟨user.id,
        create_access_token user.id (some (st.access_token_expires_in * 60)) st now,
        create_refresh_token user.id (some (st.refresh_token_expires_in * 60)) st now⟩

end UserService

/-! ## Theorems -/

open List

/-- C1: for every call to the refresh operation with any refresh-token
value, the operation either returns a new access/refresh pair (when the
token decodes under the same rules as verification and its subject
resolves to a live user) or fails with the uniform Unauthorized outcome;
failure of decode or of user lookup always yields Unauthorized, and no
other outcome is possible. -/
theorem refresh_uniform_outcome (repo : List User) (st : Settings) (now : Int)
    (token : JwtToken) :
    ((∃ r, UserService.refresh_access_token repo st now token = Except.ok r) ∨
      UserService.refresh_access_token repo st now token =
        Except.error (PyError.http ⟨401, "Invalid refresh token"⟩)) ∧
    (decodeJWT token st now = none →
      UserService.refresh_access_token repo st now token =
        Except.error (PyError.http ⟨401, "Invalid refresh token"⟩)) ∧
    (∀ p, decodeJWT token st now = some p → UserService.get_by_id repo p.sub = none →
      UserService.refresh_access_token repo st now token =
        Except.error (PyError.http ⟨401, "Invalid refresh token"⟩)) ∧
    (∀ p u, decodeJWT token st now = some p → UserService.get_by_id repo p.sub = some u →
      UserService.refresh_access_token repo st now token =
        Except.ok ⟨u.id,
          create_access_token u.id (some (st.access_token_expires_in * 60)) st now,
          create_refresh_token u.id (some (st.refresh_token_expires_in * 60)) st now⟩) := by
  cases hdec : decodeJWT token st now with
  | none =>
    have e : UserService.refresh_access_token repo st now token =
        Except.error (PyError.http ⟨401, "Invalid refresh token"⟩) := by
      simp only [UserService.refresh_access_token, hdec]
    exact ⟨Or.inr e, fun _ => e, fun p hp => by simp at hp, fun p u hp => by simp at hp⟩
  | some payload =>
    cases hu : UserService.get_by_id repo payload.sub with
    | none =>
      have e : UserService.refresh_access_token repo st now token =
          Except.error (PyError.http ⟨401, "Invalid refresh token"⟩) := by
        simp only [UserService.refresh_access_token, hdec, hu]
      refine ⟨Or.inr e, fun _ => e, fun p hp hq => e, fun p u hp hq => ?_⟩
      obtain rfl : payload = p := by injection hp
      rw [hu] at hq
      exact Option.noConfusion hq
    | some user =>
      have e : UserService.refresh_access_token repo st now token =
          Except.ok ⟨user.id,
            create_access_token user.id (some (st.access_token_expires_in * 60)) st now,
            create_refresh_token user.id (some (st.refresh_token_expires_in * 60)) st now⟩ := by
        simp only [UserService.refresh_access_token, hdec, hu]
      refine ⟨Or.inl ⟨_, e⟩, fun h => by simp at h, fun p hp hq => ?_, fun p u hp hq => ?_⟩
      · obtain rfl : payload = p := by injection hp
        rw [hu] at hq
        exact Option.noConfusion hq
      · obtain rfl : payload = p := by injection hp
        rw [hu] at hq
        obtain rfl : user = u := by injection hq
        exact e

/-- Witness for C1 at a concrete input: an undecodable token is refused
with the uniform Unauthorized outcome. -/
theorem refresh_uniform_outcome_witness :
    UserService.refresh_access_token [] ⟨"s", 30, 60⟩ 0 (JwtToken.malformed "zz") =
      Except.error (PyError.http ⟨401, "Invalid refresh token"⟩) :=
  (refresh_uniform_outcome [] ⟨"s", 30, 60⟩ 0 (JwtToken.malformed "zz")).2.1 rfl

/-- C5 counterexample: verifying a password against a malformed stored
hash does not return a boolean; passlib raises UnknownHashError and the
exception propagates out of the service verify operation. -/
theorem verify_password_malformed_hash_raises :
    UserService.verify_password "password" "not-a-hash" =
      Except.error PasslibError.unknownHash :=
  rfl

/-- C5 (amended): verify returns a boolean exactly when the stored hash
is recognized as a hash of the configured scheme; on a malformed stored
hash passlib raises UnknownHashError, which propagates uncaught to the
caller of the service verify operation. -/
theorem verify_password_outcomes (plain hashed : String) :
    (argon2Identify hashed = true →
      UserService.verify_password plain hashed = Except.ok (hashed == pwd_context_hash plain)) ∧
    (argon2Identify hashed = false →
      UserService.verify_password plain hashed = Except.error PasslibError.unknownHash) := by
  unfold UserService.verify_password pwd_context_verify
  cases h : argon2Identify hashed <;> simp [h]

/-- Witness for C5 amended theorem: a well-formed stored hash verifies to
a boolean, a malformed one to the passlib error. -/
theorem verify_password_outcomes_witness :
    UserService.verify_password "pw" (pwd_context_hash "pw") = Except.ok true ∧
    UserService.verify_password "pw" "garbage" = Except.error PasslibError.unknownHash := by
  constructor
  · have h := (verify_password_outcomes "pw" (pwd_context_hash "pw")).1 rfl
    rw [h]
    rfl
  · exact (verify_password_outcomes "pw" "garbage").2 rfl

/-- C6 counterexample: the rejection outcome exposed to the caller of
`verify_jwt_token` distinguishes an expired token from a malformed one:
both are 401 but the detail strings differ. -/
theorem token_rejection_distinguishes_expiry :
    verify_jwt_token (JwtToken.signed "u" 0 "secret") ⟨"secret", 30, 60⟩ 100 =
      Except.error ⟨401, "Token has expired"⟩ ∧
    verify_jwt_token (JwtToken.malformed "xx") ⟨"secret", 30, 60⟩ 100 =
      Except.error ⟨401, "Invalid token"⟩ ∧
    (("Token has expired" : String) == "Invalid token") = false :=
  ⟨rfl, rfl, rfl⟩

/-- C6 (amended): `decodeJWT` maps all three causes - malformed
structure, bad signature, elapsed exp - to the same `none`; rejection of
an elapsed token is deterministic.  `verify_jwt_token` maps all three to
HTTP 401, but its detail message distinguishes the expired cause from
the other two. -/
theorem decode_rejection_uniformity (st : Settings) (now exp : Int) (sub raw k : String)
    (hk : k ≠ st.secret_key) (hexp : exp ≤ now) :
    decodeJWT (JwtToken.malformed raw) st now = none ∧
    decodeJWT (JwtToken.signed sub exp k) st now = none ∧
    decodeJWT (JwtToken.signed sub exp st.secret_key) st now = none ∧
    verify_jwt_token (JwtToken.malformed raw) st now = Except.error ⟨401, "Invalid token"⟩ ∧
    verify_jwt_token (JwtToken.signed sub exp k) st now = Except.error ⟨401, "Invalid token"⟩ ∧
    verify_jwt_token (JwtToken.signed sub exp st.secret_key) st now =
      Except.error ⟨401, "Token has expired"⟩ := by
  unfold decodeJWT verify_jwt_token jwt_decode
  simp [hk, hexp]

/-- Witness for C6 amended theorem at concrete inputs. -/
theorem decode_rejection_uniformity_witness :
    decodeJWT (JwtToken.malformed "xx") ⟨"secret", 30, 60⟩ 100 = none ∧
    decodeJWT (JwtToken.signed "u" 0 "other") ⟨"secret", 30, 60⟩ 100 = none ∧
    decodeJWT (JwtToken.signed "u" 0 "secret") ⟨"secret", 30, 60⟩ 100 = none ∧
    verify_jwt_token (JwtToken.malformed "xx") ⟨"secret", 30, 60⟩ 100 =
      Except.error ⟨401, "Invalid token"⟩ ∧
    verify_jwt_token (JwtToken.signed "u" 0 "other") ⟨"secret", 30, 60⟩ 100 =
      Except.error ⟨401, "Invalid token"⟩ ∧
    verify_jwt_token (JwtToken.signed "u" 0 "secret") ⟨"secret", 30, 60⟩ 100 =
      Except.error ⟨401, "Token has expired"⟩ :=
  decode_rejection_uniformity ⟨"secret", 30, 60⟩ 100 0 "u" "xx" "other" (by decide) (by decide)

/-- C7: an authentication attempt with an unknown username and one with a
known username but wrong password produce identical Unauthorized
outcomes - same status and same message - so the response reveals
nothing about whether the username exists. -/
theorem auth_no_username_enumeration (repo : List User) (st : Settings) (now : Int)
    (u1 pw1 u2 pw2 : String) (u : User)
    (h1 : UserService.get_by_username repo u1 = none)
    (h2 : UserService.get_by_username repo u2 = some u)
    (h3 : UserService.verify_password pw2 u.password = Except.ok false) :
    UserService.get_user_token repo st now u1 pw1 =
      Except.error (PyError.http ⟨401, "Invalid username or password"⟩) ∧
    UserService.get_user_token repo st now u2 pw2 =
      Except.error (PyError.http ⟨401, "Invalid username or password"⟩) ∧
    UserService.get_user_token repo st now u1 pw1 =
      UserService.get_user_token repo st now u2 pw2 := by
  have e1 : UserService.get_user_token repo st now u1 pw1 =
      Except.error (PyError.http ⟨401, "Invalid username or password"⟩) := by
    simp only [UserService.get_user_token, h1]
  have e2 : UserService.get_user_token repo st now u2 pw2 =
      Except.error (PyError.http ⟨401, "Invalid username or password"⟩) := by
    simp only [UserService.get_user_token, h2, h3]
  exact ⟨e1, e2, e1.trans e2.symm⟩

/-- Witness for C7: register alice, then fail once with an unknown
username and once with a wrong password; both answers are the same 401. -/
theorem auth_no_username_enumeration_witness :
    UserService.get_user_token [⟨"u1", "alice", "a@b.c", pwd_context_hash "Alice@123"⟩]
        ⟨"s", 30, 60⟩ 0 "bob" "x" =
      Except.error (PyError.http ⟨401, "Invalid username or password"⟩) ∧
    UserService.get_user_token [⟨"u1", "alice", "a@b.c", pwd_context_hash "Alice@123"⟩]
        ⟨"s", 30, 60⟩ 0 "alice" "wrong" =
      Except.error (PyError.http ⟨401, "Invalid username or password"⟩) := by
  have h := auth_no_username_enumeration
    [⟨"u1", "alice", "a@b.c", pwd_context_hash "Alice@123"⟩] ⟨"s", 30, 60⟩ 0
    "bob" "x" "alice" "wrong" ⟨"u1", "alice", "a@b.c", pwd_context_hash "Alice@123"⟩
    rfl rfl rfl
  exact ⟨h.1, h.2.1⟩

/-- C8: decoding immediately after `encode(subject, ttl)` with positive
ttl succeeds and returns the subject and expiry `now + ttl`, for both
the access-token and the refresh-token constructors. -/
theorem encode_decode_roundtrip (st : Settings) (now ttl : Int) (subject : String)
    (h : 0 < ttl) :
    decodeJWT (create_access_token subject (some ttl) st now) st now =
      some ⟨subject, now + ttl⟩ ∧
    decodeJWT (create_refresh_token subject (some ttl) st now) st now =
      some ⟨subject, now + ttl⟩ := by
  unfold create_access_token create_refresh_token jwt_encode decodeJWT jwt_decode
  have hlt : ¬(now + ttl ≤ now) := by omega
  simp [hlt]

/-- Witness for C8 at a concrete subject, ttl and clock. -/
theorem encode_decode_roundtrip_witness :
    decodeJWT (create_access_token "u1" (some 5) ⟨"s", 30, 60⟩ 100) ⟨"s", 30, 60⟩ 100 =
      some ⟨"u1", 105⟩ :=
  (encode_decode_roundtrip ⟨"s", 30, 60⟩ 100 5 "u1" (by decide)).1

/-- C9: the interactive limit is validated into the range 1..100 and an
out-of-range page size surfaces as a 422 client error; but the export
path admits no wider ceiling - every limit that passes validation reaches
the export clamp unchanged and is at most 100, and a request for
limit = 1000 is rejected by the schema before the clamp runs, although
the route documents a 1..1000 range. -/
theorem export_limit_ceiling_bug :
    validatePaginationLimit 1000 = Except.error (422, "limit out of range") ∧
    (∀ l : Int, 1 ≤ l → l ≤ 100 →
      validatePaginationLimit l = Except.ok l ∧ exportEffectiveLimit l = l ∧ l ≤ 100) ∧
    (∀ l : Int, l < 1 ∨ 100 < l →
      validatePaginationLimit l = Except.error (422, "limit out of range")) := by
  refine ⟨rfl, fun l h1 h2 => ⟨?_, ?_, h2⟩, fun l h => ?_⟩
  · unfold validatePaginationLimit
    rw [if_pos ⟨h1, h2⟩]
  · unfold exportEffectiveLimit
    have hne : l ≠ 0 := by omega
    have h0 : (l == 0) = false := by simp [hne]
    rw [if_neg (by rw [h0]; exact Bool.false_ne_true)]
    omega
  · unfold validatePaginationLimit
    rw [if_neg]
    omega

/-- The post-processing when at most `limit` rows came back: the page is
the fetched list itself, no cursor, no more pages. -/
theorem pageCore_of_le {fetched : List Task} {limit : Nat} (h : fetched.length ≤ limit) :
    pageCore fetched limit = (fetched, none, false) := by
  have h2 : ¬(limit < fetched.length) := Nat.not_lt.2 h
  simp [pageCore, h2]

/-- The post-processing when more than `limit` rows came back: the extra
row is dropped, the cursor is the id of the last kept row, more pages
remain. -/
theorem pageCore_of_lt {fetched : List Task} {limit : Nat} (h : limit < fetched.length) :
    pageCore fetched limit =
      (fetched.dropLast, fetched.dropLast.getLast?.map (fun t => t.id), true) := by
  simp [pageCore, h]

/-- Membership through one optional filter step. -/
theorem mem_optFilterStep {o : Option β} {f : β → Task → Bool} {l : List Task} {t : Task} :
    t ∈ optFilterStep o f l ↔ t ∈ l ∧ o.all (fun b => f b t) = true := by
  cases o <;> simp [optFilterStep, List.mem_filter, Option.all]

/-- The iterated filter block keeps exactly the rows satisfying the
conjunction of the supplied filters. -/
theorem mem_applyFilters {filters : Option TaskFilter} {l : List Task} {t : Task} :
    t ∈ applyFilters filters l ↔ t ∈ l ∧ matchesFilter filters t = true := by
  cases filters with
  | none => simp [applyFilters, matchesFilter]
  | some f =>
    simp only [applyFilters, matchesFilter, mem_optFilterStep, Bool.and_eq_true]
    tauto

/-- One optional filter step returns a sublist of its input. -/
theorem optFilterStep_sublist (o : Option β) (f : β → Task → Bool) (l : List Task) :
    optFilterStep o f l <+ l := by
  cases o with
  | none => exact List.Sublist.refl l
  | some b => exact List.filter_sublist l

/-- The filter block returns a sublist of its input. -/
theorem applyFilters_sublist (filters : Option TaskFilter) (l : List Task) :
    applyFilters filters l <+ l := by
  cases filters with
  | none => exact List.Sublist.refl l
  | some f =>
    exact ((((((optFilterStep_sublist _ _ _).trans
      (optFilterStep_sublist _ _ _)).trans
      (optFilterStep_sublist _ _ _)).trans
      (optFilterStep_sublist _ _ _)).trans
      (optFilterStep_sublist _ _ _)).trans
      (optFilterStep_sublist _ _ _))

/-- Sorting by id permutes the rows. -/
theorem sortById_perm (l : List Task) : sortById l ~ l :=
  List.perm_insertionSort leId l

/-- Sorting by id sorts the rows by id. -/
theorem sortById_sorted (l : List Task) : List.Sorted leId (sortById l) :=
  List.sorted_insertionSort leId l

/-- Membership through the cursor clause. -/
theorem mem_afterCursor {cursor : Option Nat} {l : List Task} {t : Task} :
    t ∈ afterCursor cursor l ↔ t ∈ l ∧ ∀ c, cursor = some c → c < t.id := by
  cases cursor with
  | none => simp [afterCursor]
  | some c => simp [afterCursor, List.mem_filter]

/-- The cursor clause returns a sublist of its input. -/
theorem afterCursor_sublist (cursor : Option Nat) (l : List Task) :
    afterCursor cursor l <+ l := by
  cases cursor with
  | none => exact List.Sublist.refl l
  | some c => exact List.filter_sublist l

/-- A row is in the owner-scoped filtered ordered set exactly when it is
a table row of the owner satisfying the filters. -/
theorem mem_matchingSorted {db : List Task} {owner : Nat} {filters : Option TaskFilter}
    {t : Task} :
    t ∈ matchingSorted db owner filters ↔
      t ∈ db ∧ t.ownerId = owner ∧ matchesFilter filters t = true := by
  unfold matchingSorted sortById
  rw [(List.perm_insertionSort leId _).mem_iff, mem_applyFilters, List.mem_filter]
  simp [and_assoc]

/-- With distinct primary keys in the table, the owner-scoped filtered
ordered set is strictly increasing in id. -/
theorem matchingSorted_pairwise_lt (db : List Task) (owner : Nat)
    (filters : Option TaskFilter) (hnd : (db.map (fun t => t.id)).Nodup) :
    List.Pairwise ltId (matchingSorted db owner filters) := by
  have hsorted : List.Sorted leId (matchingSorted db owner filters) := sortById_sorted _
  have hperm : matchingSorted db owner filters ~
      applyFilters filters (db.filter (fun t => t.ownerId == owner)) := sortById_perm _
  have hsub : applyFilters filters (db.filter (fun t => t.ownerId == owner)) <+ db :=
    (applyFilters_sublist _ _).trans (List.filter_sublist db)
  have hnd2 : ((applyFilters filters (db.filter (fun t => t.ownerId == owner))).map
      (fun t => t.id)).Nodup :=
    List.Nodup.sublist (hsub.map (fun t => t.id)) hnd
  have hnd3 : ((matchingSorted db owner filters).map (fun t => t.id)).Nodup :=
    ((hperm.map (fun t => t.id)).symm).nodup hnd2
  have hne : List.Pairwise (fun a b : Task => a.id ≠ b.id)
      (matchingSorted db owner filters) := List.pairwise_map.mp hnd3
  exact (hsorted.and hne).imp (fun hab => Nat.lt_of_le_of_ne hab.1 hab.2)

/-- The returned page is a sublist of the cursor-restricted ordered
matching set. -/
theorem get_list_fst_sublist (db : List Task) (owner : Nat) (cursor : Option Nat)
    (limit : Nat) (filters : Option TaskFilter) :
    (get_list db owner cursor limit filters).1 <+
      afterCursor cursor (matchingSorted db owner filters) := by
  rcases Nat.lt_or_ge limit (fetchRows db owner cursor limit filters).length with h | h
  · have e : get_list db owner cursor limit filters =
        ((fetchRows db owner cursor limit filters).dropLast,
         (fetchRows db owner cursor limit filters).dropLast.getLast?.map (fun t => t.id),
         true) := by
      unfold get_list
      rw [pageCore_of_lt h]
    rw [e]
    exact (List.dropLast_sublist _).trans (List.take_sublist _ _)
  · have e : get_list db owner cursor limit filters =
        (fetchRows db owner cursor limit filters, none, false) := by
      unfold get_list
      rw [pageCore_of_le h]
    rw [e]
    exact List.take_sublist _ _

/-- C3: the list operation fetches `limit + 1` matching rows; when more
than `limit` rows come back it returns exactly the first `limit` of them
with `has_more = true` and `next_cursor` the id of the last returned row;
otherwise it returns all fetched rows with `has_more = false` and
`next_cursor = null`. -/
theorem get_list_overfetch_by_one (db : List Task) (owner : Nat) (cursor : Option Nat)
    (limit : Nat) (filters : Option TaskFilter) :
    fetchRows db owner cursor limit filters =
      (afterCursor cursor (matchingSorted db owner filters)).take (limit + 1) ∧
    (fetchRows db owner cursor limit filters).length ≤ limit + 1 ∧
    (limit < (fetchRows db owner cursor limit filters).length →
      get_list db owner cursor limit filters =
        ((fetchRows db owner cursor limit filters).take limit,
         ((fetchRows db owner cursor limit filters).take limit).getLast?.map (fun t => t.id),
         true)) ∧
    ((fetchRows db owner cursor limit filters).length ≤ limit →
      get_list db owner cursor limit filters =
        (fetchRows db owner cursor limit filters, none, false)) := by
  refine ⟨rfl, List.length_take_le _ _, fun h => ?_, fun h => ?_⟩
  · have hlen : (fetchRows db owner cursor limit filters).length = limit + 1 :=
      Nat.le_antisymm (List.length_take_le _ _) h
    have hdl : (fetchRows db owner cursor limit filters).dropLast =
        (fetchRows db owner cursor limit filters).take limit := by
      rw [List.dropLast_eq_take, hlen, Nat.add_sub_cancel]
    unfold get_list
    rw [pageCore_of_lt h, hdl]
  · unfold get_list
    rw [pageCore_of_le h]

/-- Witness for C3 at a concrete table: three tasks, page size 2, both
the overfull and the final page shapes. -/
theorem get_list_overfetch_by_one_witness :
    get_list wDb 7 none 2 none =
      ([wTask 1 TaskStatus.todo TaskPriority.low,
        wTask 2 TaskStatus.in_progress TaskPriority.low], some 2, true) ∧
    get_list wDb 7 (some 2) 2 none =
      ([wTask 3 TaskStatus.todo TaskPriority.high], none, false) := by
  constructor
  · have h := (get_list_overfetch_by_one wDb 7 none 2 none).2.2.1 (by decide)
    rw [h]
    decide
  · have h := (get_list_overfetch_by_one wDb 7 (some 2) 2 none).2.2.2 (by decide)
    rw [h]
    decide

/-- C10: in every result of the task list operation (page size at least
one, as the request schema guarantees), `next_cursor` is non-null exactly
when `has_more` is true, and when `has_more` is true the page holds
exactly `limit` items and `next_cursor` is the id of its last item. -/
theorem next_cursor_iff_has_more (db : List Task) (owner : Nat) (cursor : Option Nat)
    (limit : Nat) (filters : Option TaskFilter) (hl : 1 ≤ limit) :
    ((get_list db owner cursor limit filters).2.1.isSome =
      (get_list db owner cursor limit filters).2.2) ∧
    ((get_list db owner cursor limit filters).2.2 = true →
      (get_list db owner cursor limit filters).1.length = limit ∧
      (get_list db owner cursor limit filters).2.1 =
        (get_list db owner cursor limit filters).1.getLast?.map (fun t => t.id)) := by
  rcases Nat.lt_or_ge limit (fetchRows db owner cursor limit filters).length with h | h
  · have hlen : (fetchRows db owner cursor limit filters).length = limit + 1 :=
      Nat.le_antisymm (List.length_take_le _ _) h
    have e : get_list db owner cursor limit filters =
        ((fetchRows db owner cursor limit filters).dropLast,
         (fetchRows db owner cursor limit filters).dropLast.getLast?.map (fun t => t.id),
         true) := by
      unfold get_list
      rw [pageCore_of_lt h]
    have hlen2 : (fetchRows db owner cursor limit filters).dropLast.length = limit := by
      rw [List.length_dropLast, hlen, Nat.add_sub_cancel]
    have hne : (fetchRows db owner cursor limit filters).dropLast ≠ [] := by
      intro hc
      rw [hc] at hlen2
      simp at hlen2
      omega
    rw [e]
    refine ⟨?_, fun _ => ⟨hlen2, rfl⟩⟩
    have : (fetchRows db owner cursor limit filters).dropLast.getLast? ≠ none := by
      rw [Ne, List.getLast?_eq_none_iff]
      exact hne
    cases hcase : (fetchRows db owner cursor limit filters).dropLast.getLast? with
    | none => exact absurd hcase this
    | some v => simp
  · have e : get_list db owner cursor limit filters =
        (fetchRows db owner cursor limit filters, none, false) := by
      unfold get_list
      rw [pageCore_of_le h]
    rw [e]
    exact ⟨rfl, fun hc => Bool.noConfusion hc⟩

/-- Witness for C10 at a concrete table and page size. -/
theorem next_cursor_iff_has_more_witness :
    (get_list wDb 7 none 2 none).2.1.isSome = (get_list wDb 7 none 2 none).2.2 ∧
    (get_list wDb 7 none 2 none).1.length = 2 := by
  have h := next_cursor_iff_has_more wDb 7 none 2 none (by decide)
  exact ⟨h.1, (h.2 (by decide)).1⟩

/-- C4: every task returned on any page belongs to the given owner,
satisfies every supplied filter as a conjunction, and has id strictly
greater than the supplied cursor; the returned items are in ascending id
order. -/
theorem list_rows_scoped_filtered_ordered (db : List Task) (owner : Nat)
    (cursor : Option Nat) (limit : Nat) (filters : Option TaskFilter)
    (hnd : (db.map (fun t => t.id)).Nodup) :
    (∀ t ∈ (get_list db owner cursor limit filters).1,
      t.ownerId = owner ∧ matchesFilter filters t = true ∧
      ∀ c, cursor = some c → c < t.id) ∧
    List.Pairwise ltId (get_list db owner cursor limit filters).1 := by
  have hsub := get_list_fst_sublist db owner cursor limit filters
  constructor
  · intro t ht
    have hq : t ∈ afterCursor cursor (matchingSorted db owner filters) :=
      hsub.mem ht
    rw [mem_afterCursor] at hq
    have hm := mem_matchingSorted.mp hq.1
    exact ⟨hm.2.1, hm.2.2, hq.2⟩
  · have hms := matchingSorted_pairwise_lt db owner filters hnd
    have hq : List.Pairwise ltId (afterCursor cursor (matchingSorted db owner filters)) :=
      List.Pairwise.sublist (afterCursor_sublist _ _) hms
    exact List.Pairwise.sublist hsub hq

/-- Witness for C4 at a concrete table with a status filter and a
cursor. -/
theorem list_rows_scoped_filtered_ordered_witness :
    (wTask 3 TaskStatus.todo TaskPriority.high).ownerId = 7 ∧
    matchesFilter (some ⟨some TaskStatus.todo, none, none, none, none, none⟩)
      (wTask 3 TaskStatus.todo TaskPriority.high) = true ∧
    1 < (wTask 3 TaskStatus.todo TaskPriority.high).id := by
  have h := (list_rows_scoped_filtered_ordered wDb 7 (some 1) 2
    (some ⟨some TaskStatus.todo, none, none, none, none, none⟩) (by decide)).1
    (wTask 3 TaskStatus.todo TaskPriority.high) (by decide)
  exact ⟨h.1, h.2.1, h.2.2 1 rfl⟩

/-- In a strictly id-increasing list, every element id is bounded by the
id of the last element. -/
theorem pairwise_lt_le_getLast {l : List Task} {x t : Task}
    (hp : List.Pairwise ltId l) (hlast : l.getLast? = some x) (ht : t ∈ l) :
    t.id ≤ x.id := by
  obtain ⟨ys, rfl⟩ := List.getLast?_eq_some_iff.mp hlast
  rcases List.mem_append.mp ht with h | h
  · rcases List.pairwise_append.mp hp with ⟨-, -, hcross⟩
    exact Nat.le_of_lt (hcross t h x (List.mem_singleton_self x))
  · rw [List.mem_singleton.mp h]

/-- The cursor comparison against the id of the last row of a middle
segment keeps exactly the rows after that segment: rows at or before it
fail `id > cursor`, rows after it satisfy it strictly. -/
theorem filter_gt_last_eq (pre mid post : List Task) (x : Task)
    (hp : List.Pairwise ltId (pre ++ (mid ++ post)))
    (hmid : mid.getLast? = some x) :
    (pre ++ (mid ++ post)).filter (fun t => decide (x.id < t.id)) = post := by
  rw [List.filter_append, List.filter_append]
  have hx_mem : x ∈ mid := List.mem_of_getLast?_eq_some hmid
  rcases List.pairwise_append.mp hp with ⟨hpre, hrest, hcross⟩
  rcases List.pairwise_append.mp hrest with ⟨hmid_p, hpost_p, hcross2⟩
  have e1 : pre.filter (fun t => decide (x.id < t.id)) = [] := by
    rw [List.filter_eq_nil_iff]
    intro a ha
    have hax : ltId a x := hcross a ha x (List.mem_append_left _ hx_mem)
    simp only [decide_eq_true_eq]
    unfold ltId at hax
    omega
  have e2 : mid.filter (fun t => decide (x.id < t.id)) = [] := by
    rw [List.filter_eq_nil_iff]
    intro a ha
    have hax : a.id ≤ x.id := pairwise_lt_le_getLast hmid_p hmid ha
    simp only [decide_eq_true_eq]
    omega
  have e3 : post.filter (fun t => decide (x.id < t.id)) = post := by
    rw [List.filter_eq_self]
    intro a ha
    have hax : ltId x a := hcross2 x hx_mem a ha
    simpa using hax
  rw [e1, e2, e3]
  rfl

/-- The pagination loop computes exactly the chunking of the remaining
suffix of the ordered matching set: the invariant is that the rows kept
by the current cursor form a suffix `r` of the matching set. -/
theorem followPagesAux_eq_chunkPages (db : List Task) (owner : Nat) (k : Nat)
    (filters : Option TaskFilter) (hk : 1 ≤ k)
    (hp : List.Pairwise ltId (matchingSorted db owner filters)) :
    ∀ (fuel : Nat) (pre r : List Task) (cursor : Option Nat),
      matchingSorted db owner filters = pre ++ r →
      afterCursor cursor (matchingSorted db owner filters) = r →
      followPagesAux db owner k filters fuel cursor = chunkPages k fuel r := by
  intro fuel
  induction fuel with
  | zero => intro pre r cursor hsplit hcur; rfl
  | succ n ih =>
    intro pre r cursor hsplit hcur
    have hget : get_list db owner cursor k filters = pageCore (r.take (k + 1)) k := by
      unfold get_list fetchRows
      rw [hcur]
    rcases le_or_lt r.length k with hle | hlt
    · have htake : r.take (k + 1) = r :=
        List.take_of_length_le (Nat.le_trans hle (Nat.le_succ k))
      have hres : get_list db owner cursor k filters = (r, none, false) := by
        rw [hget, htake, pageCore_of_le hle]
      simp only [followPagesAux, chunkPages, hres, if_pos hle]
      simp
    · have hlen_take : (r.take (k + 1)).length = k + 1 := by
        rw [List.length_take]
        omega
      have hfetch_lt : k < (r.take (k + 1)).length := by omega
      have hdl : (r.take (k + 1)).dropLast = r.take k := by
        rw [List.dropLast_eq_take, hlen_take, Nat.add_sub_cancel, List.take_take,
          Nat.min_eq_left (Nat.le_succ k)]
      have hres : get_list db owner cursor k filters =
          (r.take k, (r.take k).getLast?.map (fun t => t.id), true) := by
        rw [hget, pageCore_of_lt hfetch_lt, hdl]
      have htk_len : (r.take k).length = k := by
        rw [List.length_take]
        omega
      obtain ⟨x, hx⟩ : ∃ x, (r.take k).getLast? = some x := by
        cases hcase : (r.take k).getLast? with
        | none =>
          have : r.take k = [] := List.getLast?_eq_none_iff.mp hcase
          rw [this] at htk_len
          simp at htk_len
          omega
        | some v => exact ⟨v, rfl⟩
      have hsplit2 : matchingSorted db owner filters = (pre ++ r.take k) ++ r.drop k := by
        rw [List.append_assoc, List.take_append_drop]
        exact hsplit
      have hcur2 : afterCursor (some x.id) (matchingSorted db owner filters) = r.drop k := by
        show (matchingSorted db owner filters).filter (fun t => decide (x.id < t.id)) =
          r.drop k
        have hp2 : List.Pairwise ltId (pre ++ (r.take k ++ r.drop k)) := by
          rw [List.take_append_drop]
          rw [hsplit] at hp
          exact hp
        have e : matchingSorted db owner filters = pre ++ (r.take k ++ r.drop k) := by
          rw [List.take_append_drop]
          exact hsplit
        rw [e]
        exact filter_gt_last_eq pre (r.take k) (r.drop k) x hp2 hx
      have hrec := ih (pre ++ r.take k) (r.drop k) (some x.id) hsplit2 hcur2
      simp only [followPagesAux, chunkPages, hres, if_neg (Nat.not_le.2 hlt)]
      rw [hx]
      simp only [Option.map_some']
      rw [hrec]
      simp

/-- Fuel induction: the chunk pages of a suffix concatenate back to the
suffix. -/
theorem chunkPages_flatten (k : Nat) (hk : 1 ≤ k) :
    ∀ (fuel : Nat) (r : List Task), r.length < fuel →
      ((chunkPages k fuel r).map (fun p => p.1)).flatten = r := by
  intro fuel
  induction fuel with
  | zero => intro r h; omega
  | succ n ih =>
    intro r h
    by_cases hle : r.length ≤ k
    · simp [chunkPages, hle]
    · have hlt : k < r.length := Nat.not_le.mp hle
      rw [chunkPages, if_neg hle]
      simp only [List.map_cons, List.flatten_cons]
      rw [ih (r.drop k) (by rw [List.length_drop]; omega)]
      exact List.take_append_drop k r

/-- Fuel induction: the number of chunk pages is one for an empty suffix
and the ceiling of the length over `k` otherwise. -/
theorem chunkPages_length (k : Nat) (hk : 1 ≤ k) :
    ∀ (fuel : Nat) (r : List Task), r.length < fuel →
      (chunkPages k fuel r).length =
        if r.length = 0 then 1 else (r.length + k - 1) / k := by
  intro fuel
  induction fuel with
  | zero => intro r h; omega
  | succ n ih =>
    intro r h
    by_cases hle : r.length ≤ k
    · rw [chunkPages, if_pos hle]
      by_cases h0 : r.length = 0
      · simp [h0]
      · rw [List.length_singleton, if_neg h0]
        have : (r.length + k - 1) / k = 1 :=
          Nat.div_eq_of_lt_le (by omega) (by omega)
        omega
    · have hlt : k < r.length := Nat.not_le.mp hle
      rw [chunkPages, if_neg hle]
      rw [List.length_cons, ih (r.drop k) (by rw [List.length_drop]; omega)]
      rw [List.length_drop]
      have hne : ¬(r.length - k = 0) := by omega
      rw [if_neg hne, if_neg (by omega : ¬(r.length = 0))]
      have e1 : r.length - k + k - 1 = r.length - 1 := by omega
      have e2 : r.length + k - 1 = (r.length - 1) + k := by omega
      rw [e1, e2, Nat.add_div_right _ (by omega : 0 < k)]

/-- Fuel induction: every chunk page but the last has `has_more = true`,
and the last has `has_more = false`. -/
theorem chunkPages_flags (k : Nat) (hk : 1 ≤ k) :
    ∀ (fuel : Nat) (r : List Task), r.length < fuel →
      (∀ p ∈ (chunkPages k fuel r).dropLast, p.2.2 = true) ∧
      (chunkPages k fuel r).getLast?.map (fun p => p.2.2) = some false := by
  intro fuel
  induction fuel with
  | zero => intro r h; omega
  | succ n ih =>
    intro r h
    by_cases hle : r.length ≤ k
    · rw [chunkPages, if_pos hle]
      exact ⟨by simp, rfl⟩
    · have hlt : k < r.length := Nat.not_le.mp hle
      rw [chunkPages, if_neg hle]
      have hrec := ih (r.drop k) (by rw [List.length_drop]; omega)
      have hne : chunkPages k n (r.drop k) ≠ [] := by
        intro hc
        rw [hc] at hrec
        exact Option.noConfusion hrec.2
      constructor
      · intro p hpmem
        rcases hcp : chunkPages k n (r.drop k) with _ | ⟨b, t⟩
        · exact absurd hcp hne
        · rw [hcp] at hpmem
          rw [List.dropLast_cons₂] at hpmem
          rcases List.mem_cons.mp hpmem with h1 | h1
          · rw [h1]
          · rw [hcp] at hrec
            exact hrec.1 p h1
      · rcases hcp : chunkPages k n (r.drop k) with _ | ⟨b, t⟩
        · exact absurd hcp hne
        · rw [hcp] at hrec
          rw [List.getLast?_cons_cons]
          exact hrec.2

/-- The ordered matching set is never longer than the table. -/
theorem matchingSorted_length_le (db : List Task) (owner : Nat)
    (filters : Option TaskFilter) :
    (matchingSorted db owner filters).length ≤ db.length := by
  have h1 : (matchingSorted db owner filters).length =
      (applyFilters filters (db.filter (fun t => t.ownerId == owner))).length :=
    (sortById_perm _).length_eq
  have h2 := ((applyFilters_sublist filters (db.filter (fun t => t.ownerId == owner))).trans
    (List.filter_sublist db)).length_le
  omega

/-- C2 (amended): with page size `k` at least one and distinct primary
keys, paging through one owner's tasks from no cursor and following each
`next_cursor` produces pages whose concatenation, in order, is exactly
the full creation-ordered (ascending-id) sequence of that owner's tasks
with no duplicates and no omissions; the page count is `ceil(N/k)` for a
non-empty collection and a single empty page when `N = 0`; every page but
the last reports `has_more = true` and the last reports
`has_more = false`. -/
theorem pagination_pages_complete (db : List Task) (owner : Nat) (k : Nat)
    (hk : 1 ≤ k) (hnd : (db.map (fun t => t.id)).Nodup) :
    (((followPages db owner k none).map (fun p => p.1)).flatten =
      matchingSorted db owner none) ∧
    matchingSorted db owner none ~ db.filter (fun t => t.ownerId == owner) ∧
    List.Pairwise ltId (matchingSorted db owner none) ∧
    ((followPages db owner k none).length =
      if (matchingSorted db owner none).length = 0 then 1
      else ((matchingSorted db owner none).length + k - 1) / k) ∧
    (∀ p ∈ (followPages db owner k none).dropLast, p.2.2 = true) ∧
    ((followPages db owner k none).getLast?.map (fun p => p.2.2) = some false) := by
  have hp := matchingSorted_pairwise_lt db owner none hnd
  have hfuel : (matchingSorted db owner none).length < db.length + 1 := by
    have := matchingSorted_length_le db owner none
    omega
  have hbridge := followPagesAux_eq_chunkPages db owner k none hk hp (db.length + 1)
    [] (matchingSorted db owner none) none (by simp) rfl
  have hfp : followPages db owner k none =
      chunkPages k (db.length + 1) (matchingSorted db owner none) := hbridge
  rw [hfp]
  exact ⟨chunkPages_flatten k hk _ _ hfuel, sortById_perm _, hp,
    chunkPages_length k hk _ _ hfuel,
    (chunkPages_flags k hk _ _ hfuel).1, (chunkPages_flags k hk _ _ hfuel).2⟩

/-- C2 counterexample: for an empty collection (`N = 0`) the pagination
process still yields one (empty) page, while `ceil(N/k) = 0`; the page
count as stated in the claim fails at `N = 0`. -/
theorem pagination_empty_counterexample :
    (followPages [] 0 1 none).length = 1 ∧
    (matchingSorted [] 0 none).length = 0 ∧
    ((matchingSorted [] 0 none).length + 1 - 1) / 1 = 0 := by decide

/-- Witness for C2 amended theorem: three tasks, page size 2, two pages
reproducing the ordered sequence. -/
theorem pagination_pages_complete_witness :
    (((followPages wDb 7 2 none).map (fun p => p.1)).flatten =
      matchingSorted wDb 7 none) ∧
    (followPages wDb 7 2 none).length = 2 := by
  have h := pagination_pages_complete wDb 7 2 (by decide) (by decide)
  refine ⟨h.1, ?_⟩
  rw [h.2.2.2.1]
  decide

/-- Witness for C9: the range bounds at concrete limits. -/
theorem export_limit_ceiling_bug_witness :
    validatePaginationLimit 100 = Except.ok 100 ∧ exportEffectiveLimit 100 = 100 ∧
    validatePaginationLimit 101 = Except.error (422, "limit out of range") := by
  have h := export_limit_ceiling_bug
  exact ⟨(h.2.1 100 (by decide) (by decide)).1, (h.2.1 100 (by decide) (by decide)).2.1,
    h.2.2 101 (Or.inr (by decide))⟩

end TaskManager
